import Mathlib

/-!
Verification of the GW-LSS repository's sky-rotation, importance-sampling and
path-construction routines against their specification.

The Python floating-point code is shallowly embedded over the reals: a float
becomes `ℝ`, `numpy` arrays of length 3 become `Fin 3 → ℝ`, 3×3 `numpy`
matrices become `Matrix (Fin 3) (Fin 3) ℝ`, Python assertions and raised
exceptions become `Except`-style error values.  Random draws
(`numpy.random.RandomState(seed).uniform(size=(3,))`) are passed in as
explicit arguments: for a fixed seed they are a pure function of the seed.
-/

open Matrix

/-- Shallow embedding of `src/gwlss/sky.py::rand_rotation_matrix`
(lines 42–65).  The three uniform variates drawn from
`numpy.random.RandomState(seed).uniform(size=(3,))` are the explicit
argument `randnums`; everything after the draw is translated line by line:
`theta = randnums[0] * 2.0 * deflection * pi`, `phi = randnums[1] * 2.0 * pi`,
`z = randnums[2] * 2.0 * deflection`, `r = sqrt(z)`,
`V = (sin(phi)*r, cos(phi)*r, sqrt(2.0 - z))`,
`R = ((ct, st, 0), (-st, ct, 0), (0, 0, 1))`,
`M = (outer(V, V) - eye(3)).dot(R)`. -/
noncomputable def rand_rotation_matrix (deflection : ℝ) (randnums : ℝ × ℝ × ℝ) :
    Matrix (Fin 3) (Fin 3) ℝ :=
  let theta : ℝ := randnums.1 * 2.0 * deflection * Real.pi
  let phi : ℝ := randnums.2.1 * 2.0 * Real.pi
  let z : ℝ := randnums.2.2 * 2.0 * deflection
  let r : ℝ := Real.sqrt z
  let V : Fin 3 → ℝ := ![Real.sin phi * r, Real.cos phi * r, Real.sqrt (2.0 - z)]
  let st : ℝ := Real.sin theta
  let ct : ℝ := Real.cos theta
  let R : Matrix (Fin 3) (Fin 3) ℝ := !![ct, st, 0; -st, ct, 0; 0, 0, 1]
  (Matrix.vecMulVec V V - 1) * R

lemma vecMulVec_self_symm (V : Fin 3 → ℝ) :
    (Matrix.vecMulVec V V)ᵀ = Matrix.vecMulVec V V := by
  ext i j
  simp [Matrix.vecMulVec_apply, mul_comm]

lemma householder_symm (V : Fin 3 → ℝ) :
    (Matrix.vecMulVec V V - 1)ᵀ = Matrix.vecMulVec V V - 1 := by
  rw [Matrix.transpose_sub, vecMulVec_self_symm, Matrix.transpose_one]

lemma householder_sq (V : Fin 3 → ℝ) (h : V 0 ^ 2 + V 1 ^ 2 + V 2 ^ 2 = 2) :
    (Matrix.vecMulVec V V - 1) * (Matrix.vecMulVec V V - 1) = 1 := by
  ext i j
  fin_cases i <;> fin_cases j <;>
    simp [Matrix.mul_apply, Fin.sum_univ_three, Matrix.vecMulVec_apply,
      Matrix.one_apply, Matrix.sub_apply] <;>
    first
      | linear_combination (V 0 * V 0) * h
      | linear_combination (V 0 * V 1) * h
      | linear_combination (V 0 * V 2) * h
      | linear_combination (V 1 * V 1) * h
      | linear_combination (V 1 * V 2) * h
      | linear_combination (V 2 * V 2) * h

lemma rz_transpose (ct st : ℝ) :
    (!![ct, st, 0; -st, ct, 0; 0, 0, 1] : Matrix (Fin 3) (Fin 3) ℝ)ᵀ =
      !![ct, -st, 0; st, ct, 0; 0, 0, 1] := by
  ext i j
  fin_cases i <;> fin_cases j <;> rfl

lemma rz_orthogonal (ct st : ℝ) (h : ct ^ 2 + st ^ 2 = 1) :
    (!![ct, st, 0; -st, ct, 0; 0, 0, 1] : Matrix (Fin 3) (Fin 3) ℝ)ᵀ *
      !![ct, st, 0; -st, ct, 0; 0, 0, 1] = 1 := by
  rw [rz_transpose]
  ext i j
  fin_cases i <;> fin_cases j <;>
    simp [Matrix.mul_apply, Fin.sum_univ_three, Matrix.one_apply, Fin.ext_iff] <;>
    first
      | linear_combination h
      | ring

lemma householder_rot_orthonormal (V : Fin 3 → ℝ) (ct st : ℝ)
    (hV : V 0 ^ 2 + V 1 ^ 2 + V 2 ^ 2 = 2) (hR : ct ^ 2 + st ^ 2 = 1) :
    ((Matrix.vecMulVec V V - 1) * !![ct, st, 0; -st, ct, 0; 0, 0, 1])ᵀ *
      ((Matrix.vecMulVec V V - 1) * !![ct, st, 0; -st, ct, 0; 0, 0, 1]) = 1 := by
  rw [Matrix.transpose_mul, householder_symm, Matrix.mul_assoc,
    ← Matrix.mul_assoc (Matrix.vecMulVec V V - 1) (Matrix.vecMulVec V V - 1),
    householder_sq V hV, Matrix.one_mul, rz_orthogonal ct st hR]

/-- C1: For every deflection in `[0, 1]` and every triple of uniform draws in
`[0, 1)` (hence for every fixed seed), the matrix `M` returned by
`rand_rotation_matrix` is orthonormal: `Mᵀ * M = 1`.  In the real-valued model
the identity is exact, which in particular implies the stated floating-point
tolerance `‖MᵀM − I‖ < 1e-10` at `deflection = 1`. -/
theorem rand_rotation_matrix_orthonormal (deflection : ℝ) (randnums : ℝ × ℝ × ℝ)
    (hd0 : 0 ≤ deflection) (hd1 : deflection ≤ 1)
    (h10 : 0 ≤ randnums.1) (h11 : randnums.1 < 1)
    (h20 : 0 ≤ randnums.2.1) (h21 : randnums.2.1 < 1)
    (h30 : 0 ≤ randnums.2.2) (h31 : randnums.2.2 < 1) :
    (rand_rotation_matrix deflection randnums)ᵀ *
      rand_rotation_matrix deflection randnums = 1 := by
  have hz0 : (0 : ℝ) ≤ randnums.2.2 * 2.0 * deflection := by positivity
  have hz2 : randnums.2.2 * 2.0 * deflection ≤ 2 := by nlinarith
  simp only [rand_rotation_matrix]
  refine householder_rot_orthonormal _ _ _ ?_ ?_
  · have hsq : Real.sqrt (randnums.2.2 * 2.0 * deflection) ^ 2 =
        randnums.2.2 * 2.0 * deflection := Real.sq_sqrt hz0
    have hsq2 : Real.sqrt (2.0 - randnums.2.2 * 2.0 * deflection) ^ 2 =
        2.0 - randnums.2.2 * 2.0 * deflection := Real.sq_sqrt (by linarith)
    have hsc := Real.sin_sq_add_cos_sq (randnums.2.1 * 2.0 * Real.pi)
    simp only [Matrix.cons_val_zero, Matrix.cons_val_one, Matrix.head_cons,
      Matrix.cons_val_two, Matrix.tail_cons]
    nlinarith [hsq, hsq2, hsc]
  · exact Real.cos_sq_add_sin_sq _

/-- Witness for C1 at `deflection = 1`, `randnums = (1/2, 1/3, 1/4)`. -/
theorem rand_rotation_matrix_orthonormal_witness :
    (rand_rotation_matrix 1 (1/2, 1/3, 1/4))ᵀ *
      rand_rotation_matrix 1 (1/2, 1/3, 1/4) = 1 :=
  rand_rotation_matrix_orthonormal 1 (1/2, 1/3, 1/4)
    (by norm_num) (by norm_num) (by norm_num) (by norm_num)
    (by norm_num) (by norm_num) (by norm_num) (by norm_num)

/-- C2 (code bug): with `deflection = 0` the code does NOT return the identity
rotation.  For every random draw it returns `diag(−1, −1, 1)` — a rotation by
π about the z-axis — which differs from the identity matrix, contradicting the
docstring "For 0, no rotation" and the claim. -/
theorem rand_rotation_matrix_deflection_zero :
    (∀ randnums : ℝ × ℝ × ℝ,
        rand_rotation_matrix 0 randnums = !![(-1 : ℝ), 0, 0; 0, -1, 0; 0, 0, 1]) ∧
      (!![(-1 : ℝ), 0, 0; 0, -1, 0; 0, 0, 1] : Matrix (Fin 3) (Fin 3) ℝ) ≠ 1 := by
  constructor
  · intro r
    have h2 : (2.0 : ℝ) = 2 := by norm_num
    have hs2 : Real.sqrt 2 * Real.sqrt 2 = 2 := Real.mul_self_sqrt (by norm_num)
    ext i j
    fin_cases i <;> fin_cases j <;>
      simp [rand_rotation_matrix, Matrix.mul_apply, Fin.sum_univ_three,
        Matrix.vecMulVec_apply, Matrix.one_apply, Matrix.sub_apply, h2, hs2] <;>
      norm_num [Matrix.vecHead, Matrix.vecTail]
  · intro h
    have h00 := congrFun (congrFun h 0) 0
    simp [Matrix.one_apply] at h00
    exact absurd h00 (by norm_num)

/-- Modelled from the spec: the longitude returned by the external
`healpy.rotator.vec2dir` is `numpy.arctan2 y x`, embedded as the argument of
the complex number `x + y*i`, which lies in `(-π, π]` and is `0` at the
origin, exactly like `numpy.arctan2`. -/
noncomputable def arctan2 (y x : ℝ) : ℝ := Complex.arg ⟨x, y⟩

/-- Modelled from the spec: the external collaborator
`healpy.rotator.dir2vec theta phi` maps colatitude/longitude to the unit
vector `(sin θ cos φ, sin θ sin φ, cos θ)`. -/
noncomputable def dir2vec (theta phi : ℝ) : Fin 3 → ℝ :=
  ![Real.sin theta * Real.cos phi, Real.sin theta * Real.sin phi, Real.cos theta]

/-- Modelled from the spec: the external collaborator
`healpy.rotator.vec2dir` maps a vector to
`(arccos (z / r), arctan2 y x)` with `r = sqrt (x² + y² + z²)`. -/
noncomputable def vec2dir (v : Fin 3 → ℝ) : ℝ × ℝ :=
  let r := Real.sqrt (v 0 ^ 2 + v 1 ^ 2 + v 2 ^ 2)
  (Real.arccos (v 2 / r), arctan2 (v 1) (v 0))

/-- `healpy.rotator.rotateVector rotmat v = rotmat · v`. -/
noncomputable def rotateVector (rotmat : Matrix (Fin 3) (Fin 3) ℝ)
    (v : Fin 3 → ℝ) : Fin 3 → ℝ :=
  rotmat.mulVec v

/-- `healpy.rotator.rotateDirection rotmat theta phi`: rotate the direction
with colatitude `theta` and longitude `phi` (in that positional order) and
return the rotated `(theta', phi')`. -/
noncomputable def rotateDirection (rotmat : Matrix (Fin 3) (Fin 3) ℝ)
    (theta phi : ℝ) : ℝ × ℝ :=
  vec2dir (rotateVector rotmat (dir2vec theta phi))

/-- Shallow embedding of `src/gwlss/sky.py::rotate_radec` (lines 68–94):
`dec_rot, ra_rot = rotateDirection(rotmat, ra - pi, pi/2 - dec)` (note the
positional order: `ra - pi` is passed as the colatitude and `pi/2 - dec` as
the longitude), then `dec_rot -= pi/2`, `ra_rot += pi`, and
`(ra_rot, dec_rot)` is returned. -/
noncomputable def rotate_radec (ra dec : ℝ) (rotmat : Matrix (Fin 3) (Fin 3) ℝ) :
    ℝ × ℝ :=
  let p := rotateDirection rotmat (ra - Real.pi) (Real.pi / 2 - dec)
  (p.2 + Real.pi, p.1 - Real.pi / 2)

lemma vec2dir_fst_range (v : Fin 3 → ℝ) :
    0 ≤ (vec2dir v).1 ∧ (vec2dir v).1 ≤ Real.pi :=
  ⟨Real.arccos_nonneg _, Real.arccos_le_pi _⟩

lemma vec2dir_snd_range (v : Fin 3 → ℝ) :
    -Real.pi < (vec2dir v).2 ∧ (vec2dir v).2 ≤ Real.pi :=
  ⟨Complex.neg_pi_lt_arg _, Complex.arg_le_pi _⟩

lemma complex_mk_one : (⟨1, 0⟩ : ℂ) = 1 := rfl

lemma complex_mk_zero : (⟨0, 0⟩ : ℂ) = 0 := rfl

lemma complex_mk_neg_one : (⟨-1, 0⟩ : ℂ) = -1 := by
  apply Complex.ext <;> simp

lemma vec2dir_e1 : vec2dir ![(1 : ℝ), 0, 0] = (Real.pi / 2, 0) := by
  norm_num [vec2dir, arctan2, Real.arccos_zero, complex_mk_one, Complex.arg_one,
    Prod.ext_iff]

lemma vec2dir_e3 : vec2dir ![(0 : ℝ), 0, 1] = (0, 0) := by
  norm_num [vec2dir, arctan2, Real.arccos_one, complex_mk_zero, Complex.arg_zero,
    Prod.ext_iff]

lemma vec2dir_neg_e1 : vec2dir ![(-1 : ℝ), 0, 0] = (Real.pi / 2, Real.pi) := by
  norm_num [vec2dir, arctan2, Real.arccos_zero, complex_mk_neg_one,
    Complex.arg_neg_one, Prod.ext_iff]

lemma dir2vec_c3_first :
    dir2vec (Real.pi / 2 - Real.pi) (Real.pi / 2 - 0) = ![0, -1, 0] := by
  have h : Real.pi / 2 - Real.pi = -(Real.pi / 2) := by ring
  ext i
  fin_cases i <;>
    simp [dir2vec, h, Real.sin_pi_div_two, Real.cos_pi_div_two]

lemma dir2vec_c3_second :
    dir2vec (Real.pi - Real.pi) (Real.pi / 2 - 0) = ![0, 0, 1] := by
  ext i
  fin_cases i <;> simp [dir2vec]

lemma dir2vec_c4 :
    dir2vec (Real.pi / 2 - Real.pi) (Real.pi / 2 - Real.pi / 2) = ![-1, 0, 0] := by
  have h : Real.pi / 2 - Real.pi = -(Real.pi / 2) := by ring
  ext i
  fin_cases i <;>
    simp [dir2vec, h, Real.sin_pi_div_two, Real.cos_pi_div_two]

lemma c3_transpose :
    (!![(0 : ℝ), -1, 0; 1, 0, 0; 0, 0, 1])ᵀ = !![(0 : ℝ), 1, 0; -1, 0, 0; 0, 0, 1] := by
  ext i j
  fin_cases i <;> fin_cases j <;> rfl

lemma mulVec_c3_first :
    (!![(0 : ℝ), -1, 0; 1, 0, 0; 0, 0, 1]).mulVec ![0, -1, 0] = ![1, 0, 0] := by
  ext i
  fin_cases i <;>
    simp [Matrix.mulVec, Matrix.dotProduct, Fin.sum_univ_three]

lemma mulVec_c3_second :
    (!![(0 : ℝ), 1, 0; -1, 0, 0; 0, 0, 1]).mulVec ![0, 0, 1] = ![0, 0, 1] := by
  ext i
  fin_cases i <;>
    simp [Matrix.mulVec, Matrix.dotProduct, Fin.sum_univ_three]

/-- C3 (code bug): `rotate_radec` passes `(ra - π, π/2 - dec)` to healpy's
`rotateDirection(rotmat, theta, phi)` in the wrong positional order (`ra - π`
becomes the colatitude), while the output conversion uses the opposite
convention, so applying the rotation `M = R_z(π/2)` and then its transpose
does not recover the input: starting from `(ra, dec) = (π/2, 0)` the round
trip returns `(π, −π/2)`, off by π/2 in both coordinates — far above the
claimed 1e-8 radians. -/
theorem rotate_radec_roundtrip_fails :
    ((!![(0 : ℝ), -1, 0; 1, 0, 0; 0, 0, 1])ᵀ *
        !![(0 : ℝ), -1, 0; 1, 0, 0; 0, 0, 1] = 1) ∧
      rotate_radec (Real.pi / 2) 0 !![(0 : ℝ), -1, 0; 1, 0, 0; 0, 0, 1] =
        (Real.pi, 0) ∧
      rotate_radec Real.pi 0 (!![(0 : ℝ), -1, 0; 1, 0, 0; 0, 0, 1])ᵀ =
        (Real.pi, -(Real.pi / 2)) ∧
      ¬(|Real.pi - Real.pi / 2| ≤ 1e-8 ∧ |-(Real.pi / 2) - 0| ≤ 1e-8) := by
  refine ⟨?_, ?_, ?_, ?_⟩
  · rw [c3_transpose]
    ext i j
    fin_cases i <;> fin_cases j <;>
      simp [Matrix.mul_apply, Fin.sum_univ_three, Matrix.one_apply, Fin.ext_iff] <;>
      norm_num [Matrix.vecHead, Matrix.vecTail]
  · simp only [rotate_radec, rotateDirection, rotateVector]
    rw [dir2vec_c3_first, mulVec_c3_first, vec2dir_e1]
    norm_num [Prod.ext_iff]
  · rw [c3_transpose]
    simp only [rotate_radec, rotateDirection, rotateVector]
    rw [dir2vec_c3_second, mulVec_c3_second, vec2dir_e3]
    norm_num [Prod.ext_iff]
  · rintro ⟨-, h⟩
    have h8 : (1e-8 : ℝ) = 1 / 100000000 := by norm_num
    rw [sub_zero, abs_neg, abs_of_pos (by positivity)] at h
    nlinarith [Real.pi_gt_three]

/-- C4 counterexample: at `(ra, dec) = (π/2, π/2)` (inside the claimed input
domain) with the identity rotation matrix, the returned `ra_rot` equals `2π`,
which is not in `[0, 2π)`: the code adds π to a longitude in `(−π, π]` and
never wraps. -/
theorem rotate_radec_range_counterexample :
    (0 ≤ Real.pi / 2 ∧ Real.pi / 2 < 2 * Real.pi) ∧
      (-(Real.pi / 2) ≤ Real.pi / 2 ∧ Real.pi / 2 ≤ Real.pi / 2) ∧
      ((1 : Matrix (Fin 3) (Fin 3) ℝ)ᵀ * 1 = 1) ∧
      (rotate_radec (Real.pi / 2) (Real.pi / 2) 1).1 = 2 * Real.pi ∧
      ¬(rotate_radec (Real.pi / 2) (Real.pi / 2) 1).1 < 2 * Real.pi := by
  have hcomp : (rotate_radec (Real.pi / 2) (Real.pi / 2) 1).1 = 2 * Real.pi := by
    simp only [rotate_radec, rotateDirection, rotateVector]
    rw [dir2vec_c4, Matrix.one_mulVec, vec2dir_neg_e1]
    ring
  refine ⟨⟨by positivity, by linarith [Real.pi_pos]⟩,
    ⟨by linarith [Real.pi_pos], le_rfl⟩, by simp, hcomp, ?_⟩
  rw [hcomp]
  exact lt_irrefl _

/-- C4 amended: for every `(ra, dec)` in the claimed input domain and every
orthonormal rotation matrix, the outputs of `rotate_radec` satisfy
`ra_rot ∈ (0, 2π]` and `dec_rot ∈ [−π/2, π/2]`.  (The code adds π to an
`arctan2` longitude in `(−π, π]` and performs no wrapping, so the right
boundary `2π` is attained and the claimed range `[0, 2π)` is off exactly at
the boundary.) -/
theorem rotate_radec_output_range (ra dec : ℝ) (M : Matrix (Fin 3) (Fin 3) ℝ)
    (hra0 : 0 ≤ ra) (hra1 : ra < 2 * Real.pi)
    (hdec0 : -(Real.pi / 2) ≤ dec) (hdec1 : dec ≤ Real.pi / 2)
    (hM : Mᵀ * M = 1) :
    0 < (rotate_radec ra dec M).1 ∧ (rotate_radec ra dec M).1 ≤ 2 * Real.pi ∧
      -(Real.pi / 2) ≤ (rotate_radec ra dec M).2 ∧
      (rotate_radec ra dec M).2 ≤ Real.pi / 2 := by
  have h1 := vec2dir_fst_range (rotateVector M (dir2vec (ra - Real.pi) (Real.pi / 2 - dec)))
  have h2 := vec2dir_snd_range (rotateVector M (dir2vec (ra - Real.pi) (Real.pi / 2 - dec)))
  refine ⟨?_, ?_, ?_, ?_⟩ <;>
    simp only [rotate_radec, rotateDirection]
  · linarith [h2.1]
  · linarith [h2.2]
  · linarith [h1.1]
  · linarith [h1.2]

/-- Witness for the amended C4 at `(ra, dec) = (0, 0)` with the identity
matrix. -/
theorem rotate_radec_output_range_witness :
    0 < (rotate_radec 0 0 1).1 ∧ (rotate_radec 0 0 1).1 ≤ 2 * Real.pi ∧
      -(Real.pi / 2) ≤ (rotate_radec 0 0 1).2 ∧
      (rotate_radec 0 0 1).2 ≤ Real.pi / 2 :=
  rotate_radec_output_range 0 0 1 le_rfl Real.two_pi_pos
    (neg_nonpos.mpr (div_nonneg Real.pi_nonneg (by norm_num)))
    (div_nonneg Real.pi_nonneg (by norm_num))
    (by simp)

/-- Python exception kinds raised by the embedded code: a failed `assert`
raises an `AssertionError` (invalid-argument), an explicit
`raise ValueError(...)` an unrecognized-kind / value error. -/
inductive PyError where
  | assertionError : String → PyError
  | valueError : String → PyError
  deriving DecidableEq

/-- The fixed matter-density constant `rho_m` of
`src/gwlss/importance_sampler.py` (line 39), in h² Msun / kpc³. -/
noncomputable def rho_m : ℝ := 88.11787915

/-- Shallow embedding of
`src/gwlss/importance_sampler.py::bias_from_density` (lines 22–52):
`simple_bias` asserts `len(bias_params) == 1` and returns
`(density / rho_m) ** beta`; `sigmoid_bias` asserts `len(bias_params) == 2`
and `t > 0` and returns `1 / (1 + exp(-x))` with
`x = (log(density / rho_m) - a_t) / t`; any other type raises `ValueError`. -/
noncomputable def bias_from_density (density : ℝ) (bias_type : String)
    (bias_params : List ℝ) : Except PyError ℝ :=
  if bias_type = "simple_bias" then
    match bias_params with
    | [beta] => .ok ((density / rho_m) ^ beta)
    | _ => .error (.assertionError "Simple bias only has one parameter.")
  else if bias_type = "sigmoid_bias" then
    match bias_params with
    | [a_t, t] =>
      if 0 < t then
        .ok (1 / (1 + Real.exp (-((Real.log (density / rho_m) - a_t) / t))))
      else .error (.assertionError "Sigmoid bias parameter `t` must be positive.")
    | _ => .error (.assertionError "Sigmoid bias has two parameters.")
  else .error (.valueError ("Unrecognised bias type `" ++ bias_type ++ "`."))

/-- C7: `bias_from_density` computes `(d / ρ_m)^β` for `simple_bias` and the
logistic `1/(1+e^(−x))`, `x = (ln(d/ρ_m) − a_t)/t`, for `sigmoid_bias`
(`t > 0`); in particular `bias(ρ_m, "simple_bias", [2]) = 1` and
`bias(ρ_m, "sigmoid_bias", [0, 1]) = 1/2`. -/
theorem bias_from_density_values :
    (∀ density beta : ℝ, 0 < density →
        bias_from_density density "simple_bias" [beta] =
          .ok ((density / rho_m) ^ beta)) ∧
      (∀ density a_t t : ℝ, 0 < density → 0 < t →
        bias_from_density density "sigmoid_bias" [a_t, t] =
          .ok (1 / (1 + Real.exp (-((Real.log (density / rho_m) - a_t) / t))))) ∧
      bias_from_density rho_m "simple_bias" [2] = .ok 1 ∧
      bias_from_density rho_m "sigmoid_bias" [0, 1] = .ok (1 / 2) := by
  have hrho : rho_m / rho_m = 1 := div_self (by norm_num [rho_m])
  refine ⟨fun d b _ => rfl, fun d a t _ ht => ?_, ?_, ?_⟩
  · simp [bias_from_density, ht]
  · simp [bias_from_density, hrho, Real.one_rpow]
  · simp [bias_from_density, hrho, Real.log_one, Real.exp_zero]
    norm_num

/-- Witness for C7 at `density = 100` with `β = 3` and `(a_t, t) = (0, 1)`. -/
theorem bias_from_density_values_witness :
    bias_from_density 100 "simple_bias" [3] = .ok ((100 / rho_m) ^ (3 : ℝ)) ∧
      bias_from_density 100 "sigmoid_bias" [0, 1] =
        .ok (1 / (1 + Real.exp (-((Real.log (100 / rho_m) - 0) / 1)))) :=
  ⟨bias_from_density_values.1 100 3 (by norm_num),
   bias_from_density_values.2.1 100 0 1 (by norm_num) (by norm_num)⟩

/-- C8: `bias_from_density` fails with an invalid-argument (assertion) error
whenever the parameter count is wrong (≠ 1 for `simple_bias`, ≠ 2 for
`sigmoid_bias`) or `t ≤ 0` for `sigmoid_bias`, before computing anything, and
fails with an unrecognized-kind (`ValueError`) error for any other
`bias_type`. -/
theorem bias_from_density_errors :
    (∀ (density : ℝ) (ps : List ℝ), ps.length ≠ 1 →
        bias_from_density density "simple_bias" ps =
          .error (.assertionError "Simple bias only has one parameter.")) ∧
      (∀ (density : ℝ) (ps : List ℝ), ps.length ≠ 2 →
        bias_from_density density "sigmoid_bias" ps =
          .error (.assertionError "Sigmoid bias has two parameters.")) ∧
      (∀ density a_t t : ℝ, t ≤ 0 →
        bias_from_density density "sigmoid_bias" [a_t, t] =
          .error (.assertionError "Sigmoid bias parameter `t` must be positive.")) ∧
      (∀ (density : ℝ) (bt : String) (ps : List ℝ),
        bt ≠ "simple_bias" → bt ≠ "sigmoid_bias" →
        bias_from_density density bt ps =
          .error (.valueError ("Unrecognised bias type `" ++ bt ++ "`."))) := by
  refine ⟨fun d ps hps => ?_, fun d ps hps => ?_, fun d a t ht => ?_,
    fun d bt ps h1 h2 => ?_⟩
  · rcases ps with _ | ⟨b, _ | ⟨c, rest⟩⟩ <;> simp_all [bias_from_density]
  · rcases ps with _ | ⟨b, _ | ⟨c, _ | ⟨e, rest⟩⟩⟩ <;> simp_all [bias_from_density]
  · simp [bias_from_density, not_lt.mpr ht]
  · simp [bias_from_density, h1, h2]

/-- Witness for C8: one concrete failing call for each of the four error
modes. -/
theorem bias_from_density_errors_witness :
    bias_from_density 1 "simple_bias" [] =
        .error (.assertionError "Simple bias only has one parameter.") ∧
      bias_from_density 1 "sigmoid_bias" [1, 2, 3] =
        .error (.assertionError "Sigmoid bias has two parameters.") ∧
      bias_from_density 1 "sigmoid_bias" [0, -1] =
        .error (.assertionError "Sigmoid bias parameter `t` must be positive.") ∧
      bias_from_density 1 "other" [] =
        .error (.valueError ("Unrecognised bias type `" ++ "other" ++ "`.")) :=
  ⟨bias_from_density_errors.1 1 [] (by simp),
   bias_from_density_errors.2.1 1 [1, 2, 3] (by simp),
   bias_from_density_errors.2.2.1 1 0 (-1) (by norm_num),
   bias_from_density_errors.2.2.2 1 "other" [] (by decide) (by decide)⟩

/-- C10 (implicit): for every density `d > 0` and sigmoid parameters with
`t > 0`, the sigmoid bias value lies strictly between 0 and 1. -/
theorem sigmoid_bias_strictly_between (density a_t t : ℝ)
    (hd : 0 < density) (ht : 0 < t) :
    ∃ v : ℝ, bias_from_density density "sigmoid_bias" [a_t, t] = .ok v ∧
      0 < v ∧ v < 1 := by
  have hexp : 0 < Real.exp (-((Real.log (density / rho_m) - a_t) / t)) :=
    Real.exp_pos _
  refine ⟨1 / (1 + Real.exp (-((Real.log (density / rho_m) - a_t) / t))),
    ?_, ?_, ?_⟩
  · simp [bias_from_density, ht]
  · positivity
  · rw [div_lt_one (by linarith)]
    linarith

/-- Witness for C10 at `density = 1`, `(a_t, t) = (0, 1)`. -/
theorem sigmoid_bias_strictly_between_witness :
    ∃ v : ℝ, bias_from_density 1 "sigmoid_bias" [0, 1] = .ok v ∧
      0 < v ∧ v < 1 :=
  sigmoid_bias_strictly_between 1 0 1 (by norm_num) (by norm_num)

/-- Shallow embedding of the body of the rotation-trial loop of
`src/scripts/interp.py::evaluate_event` (lines 138–144): for each trial,
`rotmat = gwlss.rand_rotation_matrix(seed=seed)` (deflection defaults to 1.0
and the SAME `seed` is passed on every iteration),
`ra_rot, dec_rot = gwlss.rotate_radec(ra0, dec0, rotmat)`, the angular
coordinates of `pos = (dist, ra, dec)` are overwritten with the rotated ones,
and the external interpolator `csiborgtools.field.evaluate_sky` — abstracted
here as the argument `interp` — produces the row.  `draw` models
`numpy.random.RandomState(seed).uniform(size=(3,))`, a pure function of the
seed. -/
noncomputable def trial_row (draw : Option ℕ → ℝ × ℝ × ℝ)
    (interp : List (ℝ × ℝ × ℝ) → List ℝ) (pos : List (ℝ × ℝ × ℝ))
    (seed : Option ℕ) : List ℝ :=
  let rotmat := rand_rotation_matrix 1 (draw seed)
  interp (pos.map (fun p =>
    let rd := rotate_radec p.2.1 p.2.2 rotmat
    (p.1, rd.1, rd.2)))

/-- Shallow embedding of the `nrot`-branch of
`src/scripts/interp.py::evaluate_event` (lines 131–144):
`assert isinstance(nrot, int)` always holds for `nrot : ℤ`;
`val = numpy.full((nrot, nsamples), numpy.nan)` raises
`ValueError: negative dimensions are not allowed` when `nrot < 0` and
otherwise allocates `nrot` rows, which `for i in range(nrot)` overwrites one
by one with `trial_row` (the loop body does not depend on `i`). -/
noncomputable def evaluate_event_rotations (draw : Option ℕ → ℝ × ℝ × ℝ)
    (interp : List (ℝ × ℝ × ℝ) → List ℝ) (pos : List (ℝ × ℝ × ℝ))
    (seed : Option ℕ) (nrot : ℤ) : Except PyError (List (List ℝ)) :=
  if nrot < 0 then
    .error (.valueError "negative dimensions are not allowed")
  else
    .ok ((List.range nrot.toNat).map (fun _ => trial_row draw interp pos seed))

/-- C5 (code bug): the trial loop calls `rand_rotation_matrix(seed=seed)`
with the same fixed seed on every iteration, so every row of the output uses
the identical rotation: with `nrot = 2`, for every PRNG `draw`, every
interpolator and every position list, both rows coincide — distinct trials
are not independent and do not use different rotations, contradicting the
claim of a seed sequence applied per trial index.  (Re-running with the same
seed does reproduce the same values, but only because all rows are the same
pure function of the single seed.) -/
theorem evaluate_event_same_rotation_every_trial
    (draw : Option ℕ → ℝ × ℝ × ℝ) (interp : List (ℝ × ℝ × ℝ) → List ℝ)
    (pos : List (ℝ × ℝ × ℝ)) (seed : Option ℕ) :
    evaluate_event_rotations draw interp pos seed 2 =
      .ok [trial_row draw interp pos seed, trial_row draw interp pos seed] :=
  rfl

/-- C6 counterexample: `evaluate_event` checks only
`assert isinstance(nrot, int)` and never positivity, so with the
non-positive value `nrot = 0` present the call succeeds and returns an empty
`(0 × nsamples)` result instead of failing with an invalid-argument error. -/
theorem evaluate_event_nrot_zero_succeeds :
    evaluate_event_rotations (fun _ => (0, 0, 0)) (fun _ => []) [] none 0 =
        .ok [] ∧
      ∀ e : PyError,
        evaluate_event_rotations (fun _ => (0, 0, 0)) (fun _ => []) [] none 0 ≠
          .error e := by
  refine ⟨rfl, fun e h => ?_⟩
  rw [show evaluate_event_rotations (fun _ => ((0 : ℝ), (0 : ℝ), (0 : ℝ)))
      (fun _ => []) [] none 0 = .ok [] from rfl] at h
  exact Except.noConfusion h

/-- C6 amended: with `nrot` present, the call fails only for negative `nrot`
— at the numpy allocation `numpy.full((nrot, nsamples), nan)`, with a
`ValueError` (`negative dimensions are not allowed`), before any rotation
trial runs — while `nrot = 0` is accepted and yields an empty result with no
trials run. -/
theorem evaluate_event_nrot_validation (draw : Option ℕ → ℝ × ℝ × ℝ)
    (interp : List (ℝ × ℝ × ℝ) → List ℝ) (pos : List (ℝ × ℝ × ℝ))
    (seed : Option ℕ) (nrot : ℤ) (hneg : nrot < 0) :
    evaluate_event_rotations draw interp pos seed nrot =
        .error (.valueError "negative dimensions are not allowed") ∧
      evaluate_event_rotations draw interp pos seed 0 = .ok [] :=
  ⟨by simp [evaluate_event_rotations, hneg], rfl⟩

/-- Witness for the amended C6 at `nrot = -1`. -/
theorem evaluate_event_nrot_validation_witness :
    evaluate_event_rotations (fun _ => (0, 0, 0)) (fun _ => []) [] none (-1) =
        .error (.valueError "negative dimensions are not allowed") ∧
      evaluate_event_rotations (fun _ => (0, 0, 0)) (fun _ => []) [] none 0 =
        .ok [] :=
  evaluate_event_nrot_validation _ _ _ _ (-1) (by decide)

/-- Python's `str.replace(pat, rep)` on lists of characters: replace every
non-overlapping occurrence of the (nonempty) pattern, scanning left to right.
(The code only ever calls it with the pattern `".npz"`.) -/
def pyReplace (pat rep : List Char) : List Char → List Char
  | [] => []
  | c :: cs =>
    if pat.isPrefixOf (c :: cs) ∧ pat ≠ [] then
      rep ++ pyReplace pat rep (cs.drop (pat.length - 1))
    else
      c :: pyReplace pat rep cs
termination_by s => s.length
decreasing_by
  all_goals simp [List.length_drop]
  all_goals omega

/-- Python's `str.replace` on strings, via `pyReplace` on the character
lists. -/
def pyReplaceStr (s pat rep : String) : String :=
  String.mk (pyReplace pat.data rep.data s.data)

/-- Python's `str(n).zfill(width)` for a natural number: left-pad the decimal
rendering with `'0'` to `width` characters. -/
def zfill (width : ℕ) (s : String) : String :=
  String.mk (List.replicate (width - s.length) '0' ++ s.data)

/-- Shallow embedding of the file-name construction of
`src/gwlss/paths.py::Paths.evaluated_field` (lines 83–95), dropping only the
directory part `join(self["dumpdir"], "evaluated")`:
`if is_rand: event = "rand_" + event`; `if in_rsp: kind = kind + "_rsp"`;
`fname = f"{event}_{kind}_{MAS}_{str(nsim).zfill(5)}_grid{grid}.npz"`; and
when `smooth_scale is not None and smooth_scale > 0`,
`fname = fname.replace(".npz", f"smooth{float(smooth_scale)}.npz")`.
The float `smooth_scale` is modelled as an exact rational and Python's
`repr` of the float value as the argument `floatRepr`. -/
def evaluated_field_fname (event kind : String) (nsim grid : ℕ) (MAS : String)
    (is_rand in_rsp : Bool) (smooth_scale : Option ℚ)
    (floatRepr : ℚ → String) : String :=
  let event := if is_rand then "rand_" ++ event else event
  let kind := if in_rsp then kind ++ "_rsp" else kind
  let fname := event ++ "_" ++ kind ++ "_" ++ MAS ++ "_" ++
    zfill 5 (Nat.repr nsim) ++ "_grid" ++ Nat.repr grid ++ ".npz"
  match smooth_scale with
  | some s =>
      if 0 < s then pyReplaceStr fname ".npz" ("smooth" ++ floatRepr s ++ ".npz")
      else fname
  | none => fname

/-- The naming template exactly as the spec states it:
`{event}_{kind}[_rsp]_{MAS}_{nsim:05d}_grid{grid}[smooth{scale}].npz`, with
`[_rsp]` present exactly when the redshift-space flag is set and
`[smooth{scale}]` present exactly when the smoothing scale is set (the
template has no marker for the rotation flag). -/
def spec_template_fname (event kind : String) (nsim grid : ℕ) (MAS : String)
    (in_rsp : Bool) (smooth_scale : Option ℚ) (floatRepr : ℚ → String) : String :=
  event ++ "_" ++ kind ++ (if in_rsp then "_rsp" else "") ++ "_" ++ MAS ++ "_" ++
    zfill 5 (Nat.repr nsim) ++ "_grid" ++ Nat.repr grid ++
    (match smooth_scale with
      | some s => "smooth" ++ floatRepr s
      | none => "") ++ ".npz"

lemma string_data_append (s t : String) : (s ++ t).data = s.data ++ t.data := rfl

lemma isPrefixOf_self {α : Type} [BEq α] [LawfulBEq α] (l : List α) :
    l.isPrefixOf l = true := by
  induction l with
  | nil => rfl
  | cons a as ih => simp [List.isPrefixOf_cons₂, ih]

lemma pyReplace_nil (pat rep : List Char) : pyReplace pat rep [] = [] := by
  simp [pyReplace]

lemma pyReplace_at_end (pt rep : List Char) :
    ∀ a : List Char, '.' ∉ a →
      pyReplace ('.' :: pt) rep (a ++ '.' :: pt) = a ++ rep := by
  intro a
  induction a with
  | nil =>
    intro _
    rw [List.nil_append, pyReplace]
    rw [if_pos ⟨isPrefixOf_self _, by simp⟩]
    simp [pyReplace_nil, List.drop_length]
  | cons x a' ih =>
    intro h
    simp only [List.mem_cons, not_or] at h
    obtain ⟨h1, h2⟩ := h
    rw [List.cons_append, pyReplace]
    rw [if_neg ?_]
    · rw [ih h2]
      rfl
    · rintro ⟨hp, -⟩
      rw [List.isPrefixOf_cons₂] at hp
      simp only [Bool.and_eq_true, beq_iff_eq] at hp
      exact h1 hp.1

lemma pyReplaceStr_at_end (core rep : String) (h : '.' ∉ core.data) :
    pyReplaceStr (core ++ ".npz") ".npz" rep = core ++ rep := by
  apply String.ext
  show pyReplace (".npz" : String).data rep.data (core ++ ".npz").data =
    (core ++ rep).data
  rw [string_data_append, string_data_append,
    show (".npz" : String).data = '.' :: ['n', 'p', 'z'] from rfl]
  exact pyReplace_at_end ['n', 'p', 'z'] rep.data core.data h

set_option maxHeartbeats 1000000 in
lemma digitChar_ne_dot (n : ℕ) : Nat.digitChar n ≠ '.' := by
  rcases Nat.lt_or_ge n 16 with h | h
  · interval_cases n <;> decide
  · have hbig : Nat.digitChar n = '*' := by
      unfold Nat.digitChar
      rw [if_neg (show ¬n = 0 by omega), if_neg (show ¬n = 1 by omega),
        if_neg (show ¬n = 2 by omega), if_neg (show ¬n = 3 by omega),
        if_neg (show ¬n = 4 by omega), if_neg (show ¬n = 5 by omega),
        if_neg (show ¬n = 6 by omega), if_neg (show ¬n = 7 by omega),
        if_neg (show ¬n = 8 by omega), if_neg (show ¬n = 9 by omega),
        if_neg (show ¬n = 10 by omega), if_neg (show ¬n = 11 by omega),
        if_neg (show ¬n = 12 by omega), if_neg (show ¬n = 13 by omega),
        if_neg (show ¬n = 14 by omega), if_neg (show ¬n = 15 by omega)]
    rw [hbig]
    decide

lemma toDigitsCore_ne_dot (fuel : ℕ) :
    ∀ (n : ℕ) (ds : List Char), (∀ c ∈ ds, c ≠ '.') →
      ∀ c ∈ Nat.toDigitsCore 10 fuel n ds, c ≠ '.' := by
  induction fuel with
  | zero =>
    intro n ds hds c hc
    simp only [Nat.toDigitsCore] at hc
    exact hds c hc
  | succ fuel ih =>
    intro n ds hds c hc
    simp only [Nat.toDigitsCore] at hc
    have hds' : ∀ x ∈ Nat.digitChar (n % 10) :: ds, x ≠ '.' := by
      intro x hx
      rcases List.mem_cons.mp hx with rfl | hx'
      · exact digitChar_ne_dot _
      · exact hds x hx'
    by_cases h : n / 10 = 0
    · rw [if_pos h] at hc
      exact hds' c hc
    · rw [if_neg h] at hc
      exact ih (n / 10) (Nat.digitChar (n % 10) :: ds) hds' c hc

lemma repr_data_ne_dot (n : ℕ) : '.' ∉ (Nat.repr n).data := by
  intro hc
  have h : (Nat.repr n).data = Nat.toDigitsCore 10 (n + 1) n [] := rfl
  rw [h] at hc
  exact toDigitsCore_ne_dot (n + 1) n [] (by simp) '.' hc rfl

lemma zfill_data (width : ℕ) (s : String) :
    (zfill width s).data = List.replicate (width - s.length) '0' ++ s.data := rfl

lemma zfill_repr_ne_dot (width n : ℕ) : '.' ∉ (zfill width (Nat.repr n)).data := by
  rw [zfill_data]
  intro hc
  rcases List.mem_append.mp hc with h | h
  · exact absurd (List.eq_of_mem_replicate h) (by decide)
  · exact repr_data_ne_dot n h

lemma core_data_ne_dot (event kind MAS : String) (nsim grid : ℕ)
    (is_rand in_rsp : Bool) (hev : '.' ∉ event.data) (hk : '.' ∉ kind.data)
    (hm : '.' ∉ MAS.data) :
    '.' ∉ ((if is_rand then "rand_" ++ event else event) ++ "_" ++
      (if in_rsp then kind ++ "_rsp" else kind) ++ "_" ++ MAS ++ "_" ++
      zfill 5 (Nat.repr nsim) ++ "_grid" ++ Nat.repr grid).data := by
  intro hc
  have h1 : '.' ∉ ("_" : String).data := by decide
  have h2 : '.' ∉ ("_grid" : String).data := by decide
  have h3 : '.' ∉ ("_rsp" : String).data := by decide
  have h4 : '.' ∉ ("rand_" : String).data := by decide
  have h5 := zfill_repr_ne_dot 5 nsim
  have h6 := repr_data_ne_dot grid
  cases is_rand <;> cases in_rsp <;>
    simp_all [string_data_append, List.mem_append]

/-- C9 counterexample: at `event = "GW170817"`, `kind = "density"`,
`nsim = 7468`, `grid = 256`, `MAS = "PCS"`, `is_rand = true`, `in_rsp = true`
and `smooth_scale = 0.0` the code produces
`rand_GW170817_density_rsp_PCS_07468_grid256.npz` — the rotation flag
prepends `rand_` to the event, which the template does not contain, and the
smooth part is dropped although the scale is set (it is not positive) — so
the name does not follow the claimed template. -/
theorem evaluated_field_fname_counterexample :
    evaluated_field_fname "GW170817" "density" 7468 256 "PCS" true true
        (some 0) (fun _ => "0.0") =
        "rand_GW170817_density_rsp_PCS_07468_grid256.npz" ∧
      spec_template_fname "GW170817" "density" 7468 256 "PCS" true
        (some 0) (fun _ => "0.0") =
        "GW170817_density_rsp_PCS_07468_grid256smooth0.0.npz" ∧
      evaluated_field_fname "GW170817" "density" 7468 256 "PCS" true true
          (some 0) (fun _ => "0.0") ≠
        spec_template_fname "GW170817" "density" 7468 256 "PCS" true
          (some 0) (fun _ => "0.0") := by
  refine ⟨by decide, by decide, by decide⟩

/-- C9 amended: for all inputs whose string components contain no `'.'`
character, `Paths.evaluated_field` produces exactly the template
`{event}_{kind}[_rsp]_{MAS}_{nsim:05d}_grid{grid}[smooth{scale}].npz`, with
the event replaced by `rand_{event}` when the rotation flag is set and the
`smooth{scale}` part present exactly when the smoothing scale is set to a
strictly positive value (`scale` rendered as a Python float). -/
theorem evaluated_field_fname_template (event kind : String) (nsim grid : ℕ)
    (MAS : String) (is_rand in_rsp : Bool) (smooth_scale : Option ℚ)
    (floatRepr : ℚ → String)
    (hev : '.' ∉ event.data) (hk : '.' ∉ kind.data) (hm : '.' ∉ MAS.data) :
    evaluated_field_fname event kind nsim grid MAS is_rand in_rsp smooth_scale
        floatRepr =
      (if is_rand then "rand_" ++ event else event) ++ "_" ++ kind ++
        (if in_rsp then "_rsp" else "") ++ "_" ++ MAS ++ "_" ++
        zfill 5 (Nat.repr nsim) ++ "_grid" ++ Nat.repr grid ++
        (match smooth_scale with
          | some s => if 0 < s then "smooth" ++ floatRepr s else ""
          | none => "") ++ ".npz" := by
  have hcore := core_data_ne_dot event kind MAS nsim grid is_rand in_rsp hev hk hm
  rcases smooth_scale with _ | s
  · simp only [evaluated_field_fname]
    apply String.ext
    cases in_rsp <;> cases is_rand <;>
      simp [string_data_append, List.append_assoc]
  · by_cases hs : 0 < s
    · simp only [evaluated_field_fname, if_pos hs]
      rw [pyReplaceStr_at_end _ _ hcore]
      apply String.ext
      cases in_rsp <;> cases is_rand <;>
        simp [hs, string_data_append, List.append_assoc]
    · simp only [evaluated_field_fname, if_neg hs]
      apply String.ext
      cases in_rsp <;> cases is_rand <;>
        simp [hs, string_data_append, List.append_assoc]

/-- Witness for the amended C9 at concrete inputs (with a positive smoothing
scale, exercising the `str.replace` path). -/
theorem evaluated_field_fname_template_witness :
    evaluated_field_fname "GW170817" "density" 7468 256 "PCS" false true
        (some 2) (fun _ => "2.0") =
      (if (false : Bool) then "rand_" ++ "GW170817" else "GW170817") ++ "_" ++
        "density" ++ (if (true : Bool) then "_rsp" else "") ++ "_" ++ "PCS" ++
        "_" ++ zfill 5 (Nat.repr 7468) ++ "_grid" ++ Nat.repr 256 ++
        (match (some (2 : ℚ) : Option ℚ) with
          | some s => if 0 < s then "smooth" ++ (fun _ : ℚ => "2.0") s else ""
          | none => "") ++ ".npz" :=
  evaluated_field_fname_template "GW170817" "density" 7468 256 "PCS" false true
    (some 2) (fun _ => "2.0") (by decide) (by decide) (by decide)
